import Mathlib

/-
Verification of the POTA park-activation logbook (src/POTA.py) against its
specification.  The Python program keeps an in-memory catalog of park
records, imports it from a CSV export, filters it by province, records
activations and persists everything to JSON files.  The definitions below
are a shallow embedding of that code: dictionaries become structures,
`self.all_parks` becomes an explicit `List Park` argument/result, Python
exceptions become `Except`/`Option` results, and the GUI is elided as the
spec directs (only the state transitions it drives are modelled).
-/

namespace POTA

/-- One park record, as built by `load_parks_from_csv` in POTA.py:
the dict keys `reference`, `name`, `provinces`, `activated`,
`activation_time` (the last one nullable). -/
structure Park where
  reference : String
  name : String
  provinces : List String
  activated : Bool
  activation_time : Option String
deriving Repr, DecidableEq

/-- One CSV row as seen through `csv.DictReader`: `row.get(k)` yields the
cell when the column exists (`some`) and `None` (`none`) otherwise.  Only
the three columns the importer reads are modelled; the others are ignored
by the code. -/
structure CsvRow where
  reference : Option String
  name : Option String
  locationDesc : Option String
deriving Repr, DecidableEq

/-- The fixed compiled-in province table `PROVINCE_MAP` (code→name). -/
def PROVINCE_MAP : List (String × String) :=
  [("CN-AH", "安徽"), ("CN-BJ", "北京"), ("CN-CQ", "重庆"), ("CN-FJ", "福建"),
   ("CN-GD", "广东"), ("CN-GS", "甘肃"), ("CN-GX", "广西"), ("CN-GZ", "贵州"),
   ("CN-HA", "河南"), ("CN-HB", "湖北"), ("CN-HE", "河北"), ("CN-HI", "海南"),
   ("CN-HK", "香港"), ("CN-HL", "黑龙江"), ("CN-HN", "湖南"), ("CN-JL", "吉林"),
   ("CN-JS", "江苏"), ("CN-JX", "江西"), ("CN-LN", "辽宁"), ("CN-MO", "澳门"),
   ("CN-NM", "内蒙古"), ("CN-NX", "宁夏"), ("CN-QH", "青海"), ("CN-SC", "四川"),
   ("CN-SD", "山东"), ("CN-SH", "上海"), ("CN-SN", "陕西"), ("CN-SX", "山西"),
   ("CN-TJ", "天津"), ("CN-TW", "台湾"), ("CN-XJ", "新疆"), ("CN-XZ", "西藏"),
   ("CN-YN", "云南"), ("CN-ZJ", "浙江")]

/-- Python `c in PROVINCE_MAP`: dictionary key membership. -/
def provinceMem (c : String) : Bool :=
  PROVINCE_MAP.any (fun kv => kv.1 == c)

/-- `str.strip()`: drop leading and trailing whitespace characters. -/
def trimChars (l : List Char) : List Char :=
  ((l.dropWhile Char.isWhitespace).reverse.dropWhile Char.isWhitespace).reverse

/-- `str.split(',')`: split at every comma, keeping empty pieces
(`''.split(',') == ['']`, `'a,,b'.split(',') == ['a','','b']`). -/
def split_commas : List Char → List (List Char)
  | [] => [[]]
  | c :: cs =>
    if c == ',' then
      [] :: split_commas cs
    else
      match split_commas cs with
      | t :: ts => (c :: t) :: ts
      | [] => [[c]]

/-- The province derivation of `load_parks_from_csv`:
`[c.strip() for c in desc.split(',') if c.strip() in PROVINCE_MAP]`. -/
def parse_provinces (desc : String) : List String :=
  ((split_commas desc.toList).map (fun t => String.mk (trimChars t))).filter
    (fun c => provinceMem c)

/-- Python truthiness of an optional string: `not x` is true exactly when
`x` is `None` or the empty string. -/
def falsy : Option String → Bool
  | none => true
  | some s => s == ""

/-- The row-skipping test of `load_parks_from_csv`:
`if not ref or not name or not desc: continue`. -/
def row_skip (r : CsvRow) : Bool :=
  falsy r.reference || falsy r.name || falsy r.locationDesc

/-- The reference string a (non-skipped) row contributes; for a non-skipped
row `r.reference` is `some` of it. -/
def rowRef (r : CsvRow) : String :=
  r.reference.getD ""

/-- `{p['reference']: p for p in parks}.get(ref)`: the Python dict
comprehension keeps, for each key, the LAST record with that reference,
so the lookup returns the last matching record. -/
def lookupLast : List Park → String → Option Park
  | [], _ => none
  | p :: ps, ref =>
    match lookupLast ps ref with
    | some q => some q
    | none => if p.reference == ref then some p else none

/-- `exist = existing.get(ref, {})` followed by
`exist.get('activated', False)` and `exist.get('activation_time', None)`:
the activation state carried forward from the existing catalog. -/
def carried (existing : List Park) (ref : String) : Bool × Option String :=
  match lookupLast existing ref with
  | some p => (p.activated, p.activation_time)
  | none => (false, none)

/-- The record dict appended by `load_parks_from_csv` for one valid row. -/
def mk_record (existing : List Park) (ref nm desc : String) : Park :=
  { reference := ref
    name := nm
    provinces := parse_provinces desc
    activated := (carried existing ref).1
    activation_time := (carried existing ref).2 }

/-- The record a non-skipped row turns into (fields unwrapped with
`getD ""`, which never fires on a non-skipped row). -/
def toRecord (existing : List Park) (r : CsvRow) : Park :=
  mk_record existing (rowRef r) (r.name.getD "") (r.locationDesc.getD "")

/-- `PotaLogbookApp.load_parks_from_csv`: iterates the rows, skips a row
when `reference`, `name` or `locationDesc` is missing/empty, otherwise
appends one record (activation state merged from `existing` by reference)
and bumps `processed_count`.  Returns the new catalog (which replaces
`self.all_parks` wholesale) and the count. -/
def load_parks_from_csv (existing : List Park) : List CsvRow → List Park × Nat
  | [] => ([], 0)
  | r :: rs =>
    if row_skip r then
      load_parks_from_csv existing rs
    else
      let rest := load_parks_from_csv existing rs
      (toRecord existing r :: rest.1, rest.2 + 1)

/-- The mutation at the heart of `prompt_activation`:
`next((p for p in self.all_parks if p['reference'] == park_ref), None)`
finds the first matching record and, on success, it is mutated in place
(`park['activated'] = True; park['activation_time'] = ...`).  `none`
models the `next` miss. -/
def activate_first : List Park → String → String → Option (List Park)
  | [], _, _ => none
  | p :: ps, ref, date =>
    if p.reference == ref then
      some ({ p with activated := true, activation_time := some date } :: ps)
    else
      (activate_first ps ref date).map (fun c => p :: c)

/-- `PotaLogbookApp.prompt_activation` on the accepted-dialog path: when
the reference is found the catalog is updated and saved
(`save_parks_to_json`), flag `true`; when it is not found a warning is
shown and the method returns with no mutation and no save, flag `false`.
The Bool records whether persistence happened. -/
def prompt_activation (catalog : List Park) (ref date : String) :
    List Park × Bool :=
  match activate_first catalog ref date with
  | some c => (c, true)
  | none => (catalog, false)

/-- `PotaLogbookApp.filter_parks` (the pure selection it performs):
`self.all_parks if code is None else
[p for p in self.all_parks if code in p['provinces']]`. -/
def filter_parks (catalog : List Park) (code : Option String) : List Park :=
  match code with
  | none => catalog
  | some c => catalog.filter (fun p => p.provinces.contains c)

/-- Python exception kinds observable in the modelled code paths. -/
inductive PyErr where
  | keyError
  | typeError
  | valueError
  | jsonDecodeError
deriving Repr, DecidableEq

/-- Python `int(s)` on a string: optional surrounding whitespace, an
optional sign, then at least one decimal digit; anything else raises
`ValueError`. -/
def pyIntOfString (s : String) : Except PyErr Int :=
  let t := trimChars s.toList
  let signed : Int × List Char :=
    match t with
    | '-' :: rest => (-1, rest)
    | '+' :: rest => (1, rest)
    | l => (1, l)
  if signed.2.length != 0 && signed.2.all Char.isDigit then
    .ok (signed.1 * (signed.2.foldl (fun n c => 10 * n + (c.toNat - 48)) 0 : Nat))
  else
    .error .valueError

/-- `re.search(r'-(\\d+)', reference)`: the pattern written in the source
is a RAW string containing a double backslash, so the regex is `-\\d+`,
matching a `-`, then one LITERAL backslash, then one or more LITERAL `d`
characters (NOT digits).  This returns `group(1)` of the leftmost match:
the backslash together with the maximal run of `d`s. -/
def regex_group_bsd : List Char → Option (List Char)
  | '-' :: '\\' :: 'd' :: rest =>
    some ('\\' :: 'd' :: rest.takeWhile (fun c => c == 'd'))
  | _ :: cs => regex_group_bsd cs
  | [] => none

/-- `get_park_number_int` exactly as written in POTA.py: search with the
(buggy) pattern `r'-(\\d+)'`; on a match feed `group(1)` to `int` (which
then raises `ValueError`, since the group starts with a backslash);
otherwise return 0. -/
def get_park_number_int (reference : String) : Except PyErr Int :=
  match regex_group_bsd reference.toList with
  | some g => pyIntOfString (String.mk g)
  | none => .ok 0

/-- The first run of decimal digits following a `-`, as the spec's sort-key
contract describes it (the regex the author evidently intended,
`r'-(\d+)'`): leftmost `-` immediately followed by a digit, group is the
maximal digit run. -/
def spec_digit_group : List Char → Option (List Char)
  | '-' :: c :: rest =>
    if c.isDigit then some (c :: rest.takeWhile Char.isDigit)
    else spec_digit_group (c :: rest)
  | _ :: cs => spec_digit_group cs
  | [] => none

/-- The numeric sort key as specified: integer value of the first digit
run after a `-`, and 0 when there is none. -/
def get_park_number_spec (reference : String) : Nat :=
  match spec_digit_group reference.toList with
  | some ds => ds.foldl (fun n c => 10 * n + (c.toNat - 48)) 0
  | none => 0

/-- Untyped JSON values, for the load path: `json.load` hands back
arbitrary values and `load_parks_from_json` performs no per-record
validation, so the loaded catalog is a list of raw values. -/
inductive Json where
  | null
  | bool (b : Bool)
  | num (n : Int)
  | str (s : String)
  | arr (elems : List Json)
  | obj (fields : List (String × Json))
deriving Repr

/-- Python dict lookup on an object built by `json.load`: a duplicated key
keeps the last occurrence. -/
def dictGet (fields : List (String × Json)) (key : String) : Option Json :=
  fields.foldl (fun acc kv => if kv.1 == key then some kv.2 else acc) none

/-- `isinstance(data, list)`. -/
def Json.isArr : Json → Bool
  | .arr _ => true
  | _ => false

/-- Observable states of the parks data file at load time. -/
inductive ParksFileState where
  | absent
  | unparsable
  | parsed (v : Json)

/-- `PotaLogbookApp.load_parks_from_json`: if the file does not exist,
nothing happens (`self.all_parks` keeps its prior value, `[]` at
startup); if `json.load` raises, the exception propagates (the method has
no try/except); if it parses but the top level is not a list, the content
is silently ignored; otherwise `self.all_parks` is replaced by the parsed
list. -/
def load_parks_from_json (all_parks : List Json) :
    ParksFileState → Except PyErr (List Json)
  | .absent => .ok all_parks
  | .unparsable => .error .jsonDecodeError
  | .parsed v =>
    match v with
    | .arr xs => .ok xs
    | _ => .ok all_parks

/-- Python subscription `p['provinces']` on a raw loaded value: objects
yield the value or raise `KeyError`; every other shape raises
`TypeError` (list indices must be integers, scalars are not
subscriptable). -/
def subscript (p : Json) (key : String) : Except PyErr Json :=
  match p with
  | .obj fields =>
    match dictGet fields key with
    | some v => .ok v
    | none => .error .keyError
  | _ => .error .typeError

/-- Membership of a plain string in a list of raw JSON values, by Python
`in` / `==` semantics: a string equals only an equal string. -/
def str_mem (code : String) (xs : List Json) : Bool :=
  xs.any (fun v =>
    match v with
    | .str s => s == code
    | _ => false)

/-- Python `code in v` for a string `code` and a raw value `v`: list
membership, substring test on strings, key membership on dicts,
`TypeError` on non-containers. -/
def py_in_str (code : String) : Json → Except PyErr Bool
  | .arr xs => .ok (str_mem code xs)
  | .str s => .ok (decide (List.IsInfix code.toList s.toList))
  | .obj fields => .ok (fields.any (fun kv => kv.1 == code))
  | _ => .error .typeError

/-- The comprehension `[p for p in all_parks if code in p['provinces']]`
over RAW loaded records: evaluated left to right, the first exception
aborts it. -/
def raw_filter (code : String) : List Json → Except PyErr (List Json)
  | [] => .ok []
  | p :: ps =>
    match subscript p "provinces" with
    | .error e => .error e
    | .ok v =>
      match py_in_str code v with
      | .error e => .error e
      | .ok b =>
        match raw_filter code ps with
        | .error e => .error e
        | .ok rest => .ok (if b then p :: rest else rest)

/-- `filter_parks` as it behaves on a catalog of raw loaded values:
`None` selects everything (no subscription happens), a code runs the
comprehension, which may raise. -/
def filter_parks_raw (all_parks : List Json) (code : Option String) :
    Except PyErr (List Json) :=
  match code with
  | none => .ok all_parks
  | some c => raw_filter c all_parks

/-- A raw record of the shape `filter_parks` silently assumes: an object
whose `provinces` key holds a list. -/
def has_provinces_list : Json → Bool
  | .obj fields =>
    match dictGet fields "provinces" with
    | some (.arr _) => true
    | _ => false
  | _ => false

/-- The activated/activation-time invariant of the data model: the flag is
set exactly when a date is recorded. -/
def park_inv (p : Park) : Prop :=
  p.activated = true ↔ p.activation_time ≠ none

/-- A park used by the concrete witnesses below. -/
def demoPark : Park :=
  { reference := "CN-0012", name := "Test Park", provinces := ["CN-AH"],
    activated := false, activation_time := none }

/-- A CSV row used by the concrete witnesses below. -/
def demoRow : CsvRow :=
  { reference := some "CN-0012", name := some "Test Park",
    locationDesc := some "Anhui, CN-AH, China" }

/-- `demoPark` after activation on 2024-05-01. -/
def demoParkActivated : Park :=
  { reference := "CN-0012", name := "Test Park", provinces := ["CN-AH"],
    activated := true, activation_time := some "2024-05-01" }

/-- A CSV row that appears twice in the duplicate-reference
counterexamples. -/
def dupRow : CsvRow :=
  { reference := some "CN-0001", name := some "P",
    locationDesc := some "CN-AH" }

/-- A raw loaded record of the shape `filter_parks` expects. -/
def rawGood : Json := Json.obj [("provinces", Json.arr [Json.str "CN-AH"])]

/-- Fields of a raw loaded record that lacks the `provinces` key. -/
def rawBadFields : List (String × Json) := [("name", Json.str "Park X")]

/-! Helper lemmas. -/

theorem lookupLast_mem {ps : List Park} {ref : String} {q : Park}
    (h : lookupLast ps ref = some q) : q ∈ ps ∧ q.reference = ref := by
  induction ps with
  | nil => simp [lookupLast] at h
  | cons p ps ih =>
    rw [lookupLast] at h
    cases hps : lookupLast ps ref with
    | some q' =>
      rw [hps] at h
      cases h
      rcases ih hps with ⟨hm, hr⟩
      exact ⟨List.mem_cons_of_mem _ hm, hr⟩
    | none =>
      rw [hps] at h
      by_cases hpr : p.reference == ref
      · rw [if_pos hpr] at h
        cases h
        exact ⟨List.mem_cons_self _ _, by simpa using hpr⟩
      · rw [if_neg hpr] at h
        cases h

theorem lookupLast_eq_none {ps : List Park} {ref : String}
    (h : ∀ q ∈ ps, q.reference ≠ ref) : lookupLast ps ref = none := by
  induction ps with
  | nil => rfl
  | cons p ps ih =>
    rw [lookupLast, ih (fun q hq => h q (List.mem_cons_of_mem _ hq))]
    have hp : ¬(p.reference == ref) := by
      simpa using h p (List.mem_cons_self _ _)
    rw [if_neg hp]

theorem lookupLast_unique {ps : List Park} {ref : String} {q : Park}
    (hnd : (ps.map Park.reference).Nodup) (hq : q ∈ ps)
    (hr : q.reference = ref) : lookupLast ps ref = some q := by
  induction ps with
  | nil => cases hq
  | cons p ps ih =>
    rw [List.map_cons, List.nodup_cons] at hnd
    rcases List.mem_cons.mp hq with hq | hq
    · subst hq
      have hnone : lookupLast ps ref = none := by
        refine lookupLast_eq_none (fun q' hq' hrefq' => hnd.1 ?_)
        rw [hr, ← hrefq']
        exact List.mem_map_of_mem Park.reference hq'
      rw [lookupLast, hnone, if_pos (by simpa using hr)]
    · rw [lookupLast, ih hnd.2 hq]

theorem carried_eq_none {existing : List Park} {ref : String}
    (h : ∀ q ∈ existing, q.reference ≠ ref) :
    carried existing ref = (false, none) := by
  rw [carried, lookupLast_eq_none h]

theorem carried_eq_some {existing : List Park} {ref : String} {q : Park}
    (hnd : (existing.map Park.reference).Nodup) (hq : q ∈ existing)
    (hr : q.reference = ref) :
    carried existing ref = (q.activated, q.activation_time) := by
  rw [carried, lookupLast_unique hnd hq hr]

/-- The loop of `load_parks_from_csv` is filter-then-map: skipped rows
contribute nothing, every other row contributes exactly one record, and
the count is the number of surviving rows. -/
theorem load_csv_eq (existing : List Park) (rows : List CsvRow) :
    load_parks_from_csv existing rows =
      ((rows.filter (fun r => !row_skip r)).map (toRecord existing),
       (rows.filter (fun r => !row_skip r)).length) := by
  induction rows with
  | nil => rfl
  | cons r rs ih =>
    by_cases h : row_skip r
    · simp [load_parks_from_csv, h, List.filter_cons, ih]
    · simp [load_parks_from_csv, h, List.filter_cons, ih]

theorem nonskip_ref {r : CsvRow} (h : row_skip r = false) :
    r.reference = some (rowRef r) := by
  rw [row_skip] at h
  simp only [Bool.or_eq_false_iff] at h
  cases hr : r.reference with
  | none => rw [hr] at h; simp [falsy] at h
  | some s => simp [rowRef, hr]

theorem toRecord_reference (existing : List Park) (r : CsvRow) :
    (toRecord existing r).reference = rowRef r := rfl

theorem toRecord_activated (existing : List Park) (r : CsvRow) :
    (toRecord existing r).activated = (carried existing (rowRef r)).1 := rfl

theorem toRecord_time (existing : List Park) (r : CsvRow) :
    (toRecord existing r).activation_time =
      (carried existing (rowRef r)).2 := rfl

/-- Looking up a reference that some row of `rs` carries, in the catalog
the import built from `rs`, yields the same carried activation state as
looking it up in the original catalog. -/
theorem carried_map (existing : List Park) (rs : List CsvRow) (ref : String)
    (hocc : ∃ r ∈ rs, rowRef r = ref) :
    carried (rs.map (toRecord existing)) ref = carried existing ref := by
  induction rs with
  | nil => rcases hocc with ⟨r, hr, -⟩; cases hr
  | cons r rs ih =>
    rw [List.map_cons, carried, lookupLast]
    cases hps : lookupLast (rs.map (toRecord existing)) ref with
    | some q =>
      rcases lookupLast_mem hps with ⟨hqm, hqr⟩
      rcases List.mem_map.mp hqm with ⟨r', hr', hq⟩
      have : carried (rs.map (toRecord existing)) ref = carried existing ref :=
        ih ⟨r', hr', by rw [← hqr, ← hq, toRecord_reference]⟩
      rw [carried, hps] at this
      rw [this]
    | none =>
      by_cases hr : rowRef r = ref
      · rw [if_pos (by simpa [toRecord_reference] using hr)]
        subst hr
        simp [toRecord, mk_record]
      · rcases hocc with ⟨r'', hr'', hrr⟩
        rcases List.mem_cons.mp hr'' with h | h
        · subst h; exact absurd hrr hr
        · have hx : carried (rs.map (toRecord existing)) ref = carried existing ref :=
            ih ⟨r'', h, hrr⟩
          rw [carried, hps] at hx
          rw [if_neg (by simpa [toRecord_reference] using hr)]
          simpa using hx

theorem activate_first_eq_none {c : List Park} {ref date : String}
    (h : ∀ p ∈ c, p.reference ≠ ref) :
    activate_first c ref date = none := by
  induction c with
  | nil => rfl
  | cons p ps ih =>
    rw [activate_first,
      if_neg (by simpa using h p (List.mem_cons_self _ _)),
      ih (fun q hq => h q (List.mem_cons_of_mem _ hq))]
    rfl

theorem activate_first_of_mem {c : List Park} {ref : String} (date : String)
    (h : ∃ p ∈ c, p.reference = ref) :
    ∃ i : Fin c.length,
      (c.get i).reference = ref ∧
      activate_first c ref date =
        some (c.set i
          { c.get i with activated := true, activation_time := some date }) := by
  induction c with
  | nil => rcases h with ⟨p, hp, -⟩; cases hp
  | cons p ps ih =>
    by_cases hp : p.reference = ref
    · refine ⟨⟨0, Nat.succ_pos _⟩, hp, ?_⟩
      rw [activate_first, if_pos (by simpa using hp)]
      rfl
    · have hex : ∃ q ∈ ps, q.reference = ref := by
        rcases h with ⟨q, hq, hqr⟩
        rcases List.mem_cons.mp hq with rfl | hq
        · exact absurd hqr hp
        · exact ⟨q, hq, hqr⟩
      rcases ih hex with ⟨i, hiref, hact⟩
      refine ⟨⟨i.val + 1, Nat.succ_lt_succ i.isLt⟩, by simpa using hiref, ?_⟩
      rw [activate_first, if_neg (by simpa using hp), hact]
      rfl

theorem activate_first_some_mem {c c' : List Park} {ref date : String}
    (h : activate_first c ref date = some c') :
    ∃ p ∈ c, p.reference = ref := by
  by_contra hn
  push_neg at hn
  rw [activate_first_eq_none hn] at h
  cases h

theorem activate_first_refs {c c' : List Park} {ref date : String}
    (h : activate_first c ref date = some c') :
    c'.map Park.reference = c.map Park.reference := by
  induction c generalizing c' with
  | nil => cases h
  | cons p ps ih =>
    rw [activate_first] at h
    by_cases hp : p.reference == ref
    · rw [if_pos hp] at h
      cases h
      rfl
    · rw [if_neg hp] at h
      cases hps : activate_first ps ref date with
      | none => rw [hps] at h; cases h
      | some cs =>
        rw [hps] at h
        cases h
        simp [ih hps]

/-- After a successful in-place activation, looking the reference up in
the updated catalog (references unique) finds the activated record. -/
theorem activate_carried {c c' : List Park} {ref date : String}
    (hnd : (c.map Park.reference).Nodup)
    (h : activate_first c ref date = some c') :
    carried c' ref = (true, some date) := by
  induction c generalizing c' with
  | nil => cases h
  | cons p ps ih =>
    rw [List.map_cons, List.nodup_cons] at hnd
    rw [activate_first] at h
    by_cases hp : p.reference == ref
    · rw [if_pos hp] at h
      cases h
      have hp' : p.reference = ref := by simpa using hp
      have hnone : lookupLast ps ref = none := by
        refine lookupLast_eq_none (fun q hq hqr => hnd.1 ?_)
        rw [hp', ← hqr]
        exact List.mem_map_of_mem Park.reference hq
      rw [carried, lookupLast, hnone, if_pos (by simpa using hp')]
    · rw [if_neg hp] at h
      cases hps : activate_first ps ref date with
      | none => rw [hps] at h; cases h
      | some cs =>
        rw [hps] at h
        cases h
        have hx := ih hnd.2 hps
        rw [carried] at hx ⊢
        rw [lookupLast]
        cases hl : lookupLast cs ref with
        | some q => rw [hl] at hx; exact hx
        | none => rw [hl] at hx; simp at hx

theorem filter_parks_some (catalog : List Park) (c : String) :
    filter_parks catalog (some c) =
      catalog.filter (fun p => decide (c ∈ p.provinces)) := by
  rw [filter_parks]
  exact List.filter_congr (fun p _ => List.elem_eq_mem c p.provinces)

theorem provinceMem_eq_mem (c : String) :
    provinceMem c = decide (c ∈ PROVINCE_MAP.map Prod.fst) := by
  rw [Bool.eq_iff_iff]
  simp [provinceMem, List.any_eq_true, List.mem_map]

/-! Claim theorems. -/

/-- C1: the spec's sort-key contract says the key of a reference is the
integer value of the first run of decimal digits after a `-` (12 for
"CN-0012", 0 for "BADREF").  The code's pattern `r'-(\\d+)'` is a raw
string whose regex matches a literal backslash followed by letter `d`s,
never digits, so `get_park_number_int "CN-0012"` returns 0 where the
spec (`get_park_number_spec`) says 12 — and on a string the buggy
pattern does match, `int()` raises `ValueError`.  The code contradicts
the evident intent of its own function name and of the numeric sort it
feeds. -/
theorem C1_sort_key_bug :
    get_park_number_int "CN-0012" = .ok 0
    ∧ get_park_number_spec "CN-0012" = 12
    ∧ get_park_number_spec "BADREF" = 0
    ∧ get_park_number_int "CN-\\dd" = .error .valueError :=
  ⟨rfl, rfl, rfl, rfl⟩

/-- C2: when some record of the catalog carries the reference, activation
updates exactly that record (sets `activated := true` and the given
date, leaving every other position untouched — `List.set`) and persists
(flag `true`); when no record carries it, the operation signals "not
found" by returning the catalog unchanged with no persistence (flag
`false`). -/
theorem C2_activation (catalog : List Park) (ref date : String) :
    ((∃ p ∈ catalog, p.reference = ref) →
      ∃ i : Fin catalog.length,
        (catalog.get i).reference = ref ∧
        prompt_activation catalog ref date =
          (catalog.set i
            { catalog.get i with
                activated := true,
                activation_time := some date }, true))
    ∧ ((∀ p ∈ catalog, p.reference ≠ ref) →
        prompt_activation catalog ref date = (catalog, false)) := by
  constructor
  · intro h
    rcases activate_first_of_mem date h with ⟨i, hiref, hact⟩
    exact ⟨i, hiref, by rw [prompt_activation, hact]⟩
  · intro h
    rw [prompt_activation, activate_first_eq_none h]

theorem C2_activation_witness :
    (∃ p ∈ [demoPark], p.reference = "CN-0012")
    ∧ ∃ i : Fin [demoPark].length,
        ([demoPark].get i).reference = "CN-0012" ∧
        prompt_activation [demoPark] "CN-0012" "2024-05-01" =
          ([demoPark].set i
            { [demoPark].get i with
                activated := true,
                activation_time := some "2024-05-01" }, true) :=
  ⟨⟨demoPark, List.mem_cons_self _ _, rfl⟩,
   (C2_activation [demoPark] "CN-0012" "2024-05-01").1
     ⟨demoPark, List.mem_cons_self _ _, rfl⟩⟩

/-- C3: the importer skips exactly the rows with a missing/empty
`reference`, `name` or `locationDesc` (without error), turns every other
row into exactly one record in order, derives `provinces` by splitting
`locationDesc` on commas, trimming each token and keeping the tokens
that are keys of the fixed province table (order kept, no explicit
dedup), and returns a count equal to the number of records produced. -/
theorem C3_import_rows (existing : List Park) (rows : List CsvRow) :
    (load_parks_from_csv existing rows).1
        = (rows.filter (fun r => !row_skip r)).map (toRecord existing)
    ∧ (load_parks_from_csv existing rows).2
        = (load_parks_from_csv existing rows).1.length
    ∧ ∀ r : CsvRow, row_skip r = false →
        (toRecord existing r).provinces
          = ((split_commas ((r.locationDesc.getD "").toList)).map
              (fun t => String.mk (trimChars t))).filter
              (fun t => decide (t ∈ PROVINCE_MAP.map Prod.fst)) := by
  refine ⟨by rw [load_csv_eq], ?_, ?_⟩
  · rw [load_csv_eq]
    simp
  · intro r _
    show parse_provinces (r.locationDesc.getD "") = _
    rw [parse_provinces]
    exact List.filter_congr (fun t _ => provinceMem_eq_mem t)

theorem C3_import_rows_witness :
    row_skip demoRow = false
    ∧ (toRecord [] demoRow).provinces
        = ((split_commas ((demoRow.locationDesc.getD "").toList)).map
            (fun t => String.mk (trimChars t))).filter
            (fun t => decide (t ∈ PROVINCE_MAP.map Prod.fst)) :=
  ⟨rfl, (C3_import_rows [] [demoRow]).2.2 demoRow rfl⟩

/-- C4: each imported record carries `activated`/`activation_time` over
from the record of the existing catalog with the same reference when
there is one (references unique in the existing catalog, per the data
model) and defaults to `false`/null otherwise; and the import replaces
the catalog entirely: every record of the result owes its reference to
some non-skipped CSV row, so a reference absent from the CSV is absent
from the result. -/
theorem C4_merge (existing : List Park) (rows : List CsvRow)
    (hnd : (existing.map Park.reference).Nodup) :
    (∀ p ∈ (load_parks_from_csv existing rows).1,
      (∀ q ∈ existing, q.reference = p.reference →
        p.activated = q.activated ∧ p.activation_time = q.activation_time)
      ∧ ((∀ q ∈ existing, q.reference ≠ p.reference) →
          p.activated = false ∧ p.activation_time = none))
    ∧ (∀ p ∈ (load_parks_from_csv existing rows).1,
        ∃ r ∈ rows, row_skip r = false ∧ r.reference = some p.reference) := by
  have heq := load_csv_eq existing rows
  constructor
  · intro p hp
    rw [heq] at hp
    rcases List.mem_map.mp hp with ⟨r, hr, rfl⟩
    constructor
    · intro q hq hqr
      have hc : carried existing (rowRef r) = (q.activated, q.activation_time) :=
        carried_eq_some hnd hq (by rw [hqr, toRecord_reference])
      rw [toRecord_activated, toRecord_time, hc]
      exact ⟨rfl, rfl⟩
    · intro hq
      have hc : carried existing (rowRef r) = (false, none) :=
        carried_eq_none
          (fun q hqm => by simpa [toRecord_reference] using hq q hqm)
      rw [toRecord_activated, toRecord_time, hc]
      exact ⟨rfl, rfl⟩
  · intro p hp
    rw [heq] at hp
    rcases List.mem_map.mp hp with ⟨r, hr, rfl⟩
    have hf := List.mem_filter.mp hr
    have hskip : row_skip r = false := by simpa using hf.2
    refine ⟨r, hf.1, hskip, ?_⟩
    rw [toRecord_reference]
    exact nonskip_ref hskip

theorem C4_merge_witness :
    (([demoPark].map Park.reference).Nodup)
    ∧ ((load_parks_from_csv [demoPark] [demoRow]).1.head?.map
          Park.activation_time = some none) :=
  ⟨by decide, by
    rcases (C4_merge [demoPark] [demoRow] (by decide)).1
        (toRecord [demoPark] demoRow)
        (by rw [load_csv_eq]; exact List.mem_cons_self _ _) with ⟨hc, -⟩
    rcases hc demoPark (List.mem_cons_self _ _) rfl with ⟨-, ht⟩
    rw [show (load_parks_from_csv [demoPark] [demoRow]).1
          = [toRecord [demoPark] demoRow] from by rw [load_csv_eq]; rfl]
    show some ((toRecord [demoPark] demoRow).activation_time) = some none
    rw [ht]
    rfl⟩

/-- C5 (counterexample): with a CSV whose two rows share the reference
"CN-0001", the first import yields two records; activating "CN-0001"
succeeds (an activation is recorded between the imports), yet after
re-importing the same CSV every record is unactivated — the second
pass does NOT preserve the activation on the records with the
matching reference, because the merge dict keeps only the last record
per reference while activation marks the first. -/
theorem C5_reimport_counterexample :
    (activate_first (load_parks_from_csv [] [dupRow, dupRow]).1 "CN-0001"
        "2024-05-01").isSome = true
    ∧ ((load_parks_from_csv
          ((activate_first (load_parks_from_csv [] [dupRow, dupRow]).1
              "CN-0001" "2024-05-01").getD [])
          [dupRow, dupRow]).1.all
        (fun p => p.activated == false)) = true :=
  ⟨rfl, rfl⟩

/-- C5 (amended): re-importing the same CSV yields an identical catalog
(idempotence, unconditionally); and provided the non-skipped rows of
the CSV carry pairwise distinct references, an activation recorded
between the two imports is preserved across the second import on the
records with the matching reference. -/
theorem C5_reimport (existing : List Park) (rows : List CsvRow)
    (ref date : String) :
    (load_parks_from_csv (load_parks_from_csv existing rows).1 rows).1
      = (load_parks_from_csv existing rows).1
    ∧ ((((rows.filter (fun r => !row_skip r)).map rowRef).Nodup) →
        ∀ c' : List Park,
          activate_first (load_parks_from_csv existing rows).1 ref date
            = some c' →
          (∃ p ∈ (load_parks_from_csv c' rows).1, p.reference = ref)
          ∧ ∀ p ∈ (load_parks_from_csv c' rows).1, p.reference = ref →
              p.activated = true ∧ p.activation_time = some date) := by
  have h1 : (load_parks_from_csv existing rows).1
      = (rows.filter (fun r => !row_skip r)).map (toRecord existing) := by
    rw [load_csv_eq]
  constructor
  · rw [load_csv_eq (load_parks_from_csv existing rows).1 rows]
    show (rows.filter (fun r => !row_skip r)).map
        (toRecord (load_parks_from_csv existing rows).1)
      = (load_parks_from_csv existing rows).1
    rw [h1]
    refine List.map_eq_map_iff.mpr (fun r hr => ?_)
    have hc := carried_map existing (rows.filter (fun r => !row_skip r))
      (rowRef r) ⟨r, hr, rfl⟩
    simp [toRecord, mk_record, hc]
  · intro hnod c' hact
    have hrefs : (load_parks_from_csv existing rows).1.map Park.reference
        = (rows.filter (fun r => !row_skip r)).map rowRef := by
      rw [h1, List.map_map]
      rfl
    have hnd' : ((load_parks_from_csv existing rows).1.map Park.reference).Nodup := by
      rw [hrefs]; exact hnod
    have hcar : carried c' ref = (true, some date) :=
      activate_carried hnd' hact
    have h2 : (load_parks_from_csv c' rows).1
        = (rows.filter (fun r => !row_skip r)).map (toRecord c') := by
      rw [load_csv_eq]
    constructor
    · rcases activate_first_some_mem hact with ⟨q, hq, hqr⟩
      rw [h1] at hq
      rcases List.mem_map.mp hq with ⟨r, hr, hqe⟩
      refine ⟨toRecord c' r, ?_, ?_⟩
      · rw [h2]; exact List.mem_map_of_mem _ hr
      · rw [toRecord_reference, ← hqr, ← hqe, toRecord_reference]
    · intro p hp hpr
      rw [h2] at hp
      rcases List.mem_map.mp hp with ⟨r, hr, rfl⟩
      rw [toRecord_reference] at hpr
      rw [toRecord_activated, toRecord_time, hpr, hcar]
      exact ⟨rfl, rfl⟩

theorem C5_reimport_witness :
    (((([demoRow] : List CsvRow).filter (fun r => !row_skip r)).map
        rowRef).Nodup)
    ∧ activate_first (load_parks_from_csv [] [demoRow]).1 "CN-0012"
        "2024-05-01" = some [demoParkActivated]
    ∧ (load_parks_from_csv (load_parks_from_csv [] [demoRow]).1 [demoRow]).1
        = (load_parks_from_csv [] [demoRow]).1
    ∧ (∃ p ∈ (load_parks_from_csv [demoParkActivated] [demoRow]).1,
          p.reference = "CN-0012")
    ∧ ∀ p ∈ (load_parks_from_csv [demoParkActivated] [demoRow]).1,
        p.reference = "CN-0012" →
          p.activated = true ∧ p.activation_time = some "2024-05-01" :=
  ⟨by decide, rfl, (C5_reimport [] [demoRow] "CN-0012" "2024-05-01").1,
   (C5_reimport [] [demoRow] "CN-0012" "2024-05-01").2 (by decide)
     [demoParkActivated] rfl⟩

/-- C6: filtering by a province code returns exactly the records whose
`provinces` contains the code, in original catalog order (the result is
a sublist of the catalog); the null / "all provinces" selection returns
the whole catalog. -/
theorem C6_filter (catalog : List Park) (c : String) :
    filter_parks catalog none = catalog
    ∧ filter_parks catalog (some c) =
        catalog.filter (fun p => decide (c ∈ p.provinces))
    ∧ List.Sublist (filter_parks catalog (some c)) catalog :=
  ⟨rfl, filter_parks_some catalog c,
   (filter_parks_some catalog c) ▸ List.filter_sublist catalog⟩

/-- C9: loading with the backing file absent yields the empty catalog;
an existing file that is not valid JSON makes the load fail with the
propagated parse error; a file that parses to a non-array top level is
silently ignored, leaving the catalog empty. -/
theorem C9_load (v : Json) (h : v.isArr = false) :
    load_parks_from_json [] .absent = .ok []
    ∧ load_parks_from_json [] .unparsable = .error .jsonDecodeError
    ∧ load_parks_from_json [] (.parsed v) = .ok [] := by
  refine ⟨rfl, rfl, ?_⟩
  cases v <;> first | rfl | simp [Json.isArr] at h

theorem C9_load_witness :
    Json.null.isArr = false
    ∧ (load_parks_from_json [] .absent = .ok []
       ∧ load_parks_from_json [] .unparsable = .error .jsonDecodeError
       ∧ load_parks_from_json [] (.parsed Json.null) = .ok []) :=
  ⟨rfl, C9_load Json.null rfl⟩

theorem activate_first_inv {c c' : List Park} {ref date : String}
    (h : ∀ p ∈ c, park_inv p) (hact : activate_first c ref date = some c') :
    ∀ p ∈ c', park_inv p := by
  induction c generalizing c' with
  | nil => cases hact
  | cons p ps ih =>
    rw [activate_first] at hact
    by_cases hp : p.reference == ref
    · rw [if_pos hp] at hact
      cases hact
      intro q hq
      rcases List.mem_cons.mp hq with rfl | hq
      · simp [park_inv]
      · exact h q (List.mem_cons_of_mem _ hq)
    · rw [if_neg hp] at hact
      cases hps : activate_first ps ref date with
      | none => rw [hps] at hact; cases hact
      | some cs =>
        rw [hps] at hact
        cases hact
        intro q hq
        rcases List.mem_cons.mp hq with rfl | hq
        · exact h q (List.mem_cons_self _ _)
        · exact ih (fun x hx => h x (List.mem_cons_of_mem _ hx)) hps q hq

theorem import_inv {c : List Park} (h : ∀ p ∈ c, park_inv p)
    (rows : List CsvRow) :
    ∀ p ∈ (load_parks_from_csv c rows).1, park_inv p := by
  intro p hp
  rw [load_csv_eq] at hp
  rcases List.mem_map.mp hp with ⟨r, hr, rfl⟩
  rw [park_inv, toRecord_activated, toRecord_time, carried]
  cases hl : lookupLast c (rowRef r) with
  | none => simp
  | some q =>
    rcases lookupLast_mem hl with ⟨hqm, -⟩
    simpa [park_inv] using h q hqm

/-- C7: assuming every record of the catalog satisfies
"`activated` iff `activation_time` non-null", the invariant still holds
of every record after a successful activation, and of every record of
the catalog produced by a subsequent CSV import merge. -/
theorem C7_invariant (c : List Park) (h : ∀ p ∈ c, park_inv p) :
    (∀ (ref date : String) (c' : List Park),
        activate_first c ref date = some c' → ∀ p ∈ c', park_inv p)
    ∧ (∀ rows : List CsvRow,
        ∀ p ∈ (load_parks_from_csv c rows).1, park_inv p) :=
  ⟨fun _ _ _ hact => activate_first_inv h hact,
   fun rows => import_inv h rows⟩

theorem demoPark_inv : ∀ p ∈ [demoPark], park_inv p := by
  intro p hp
  rcases List.mem_cons.mp hp with rfl | hq
  · simp [park_inv, demoPark]
  · cases hq

theorem C7_invariant_witness :
    (∀ p ∈ [demoPark], park_inv p)
    ∧ ((∀ (ref date : String) (c' : List Park),
          activate_first [demoPark] ref date = some c' →
            ∀ p ∈ c', park_inv p)
       ∧ (∀ rows : List CsvRow,
            ∀ p ∈ (load_parks_from_csv [demoPark] rows).1, park_inv p)) :=
  ⟨demoPark_inv, C7_invariant [demoPark] demoPark_inv⟩

/-- C8 (counterexample): import performs no deduplication, so the CSV
with two rows both carrying reference "CN-0001" produces a catalog in
which two records share the same reference — `reference` does not
uniquely identify a record of that imported catalog. -/
theorem C8_unique_counterexample :
    ¬ (((load_parks_from_csv [] [dupRow, dupRow]).1.map
          Park.reference).Nodup) := by
  decide

/-- C8 (amended): provided the non-skipped rows of the CSV carry
pairwise distinct references, the imported catalog's references are
pairwise distinct; and activation never changes any reference, so it
preserves reference uniqueness.  (The code never deduplicates: a CSV
with repeated references yields repeated records.) -/
theorem C8_unique_refs (existing : List Park) (rows : List CsvRow)
    (hnd : (((rows.filter (fun r => !row_skip r)).map rowRef).Nodup)) :
    (((load_parks_from_csv existing rows).1.map Park.reference).Nodup)
    ∧ (∀ (c c' : List Park) (ref date : String),
        activate_first c ref date = some c' →
          c'.map Park.reference = c.map Park.reference) := by
  constructor
  · have h1 : (load_parks_from_csv existing rows).1
        = (rows.filter (fun r => !row_skip r)).map (toRecord existing) := by
      rw [load_csv_eq]
    rw [h1, List.map_map]
    exact hnd
  · intro c c' ref date h
    exact activate_first_refs h

theorem C8_unique_refs_witness :
    ((([dupRow] : List CsvRow).filter (fun r => !row_skip r)).map
        rowRef).Nodup
    ∧ (((load_parks_from_csv [] [dupRow]).1.map Park.reference).Nodup) :=
  ⟨by decide, (C8_unique_refs [] [dupRow] (by decide)).1⟩

theorem has_provinces_list_elim {p : Json}
    (h : has_provinces_list p = true) :
    ∃ fields xs, p = Json.obj fields
      ∧ dictGet fields "provinces" = some (Json.arr xs) := by
  cases p with
  | obj fields =>
    refine ⟨fields, ?_⟩
    rw [has_provinces_list] at h
    cases hd : dictGet fields "provinces" with
    | none => rw [hd] at h; cases h
    | some v =>
      rw [hd] at h
      cases v with
      | arr xs => exact ⟨xs, rfl, rfl⟩
      | null => cases h
      | bool b => cases h
      | num n => cases h
      | str s => cases h
      | obj fs => cases h
  | null => cases h
  | bool b => cases h
  | num n => cases h
  | str s => cases h
  | arr xs => cases h

/-- C10: the load path accepts any JSON array verbatim (no per-record
validation), and filtering by a province code is partial on such raw
catalogs: when the catalog contains an object record without a
`provinces` key (every record before it being shaped as the filter
assumes, so it is reached), the comprehension raises `KeyError` instead
of returning a filtered sequence. -/
theorem C10_filter_partial (pre post : List Json)
    (fs : List (String × Json)) (code : String)
    (hpre : ∀ p ∈ pre, has_provinces_list p = true)
    (hbad : dictGet fs "provinces" = none) :
    load_parks_from_json [] (.parsed (.arr (pre ++ Json.obj fs :: post)))
        = .ok (pre ++ Json.obj fs :: post)
    ∧ filter_parks_raw (pre ++ Json.obj fs :: post) (some code)
        = .error .keyError := by
  refine ⟨rfl, ?_⟩
  show raw_filter code (pre ++ Json.obj fs :: post) = .error .keyError
  induction pre with
  | nil =>
    simp [raw_filter, subscript, hbad]
  | cons p ps ih =>
    rcases has_provinces_list_elim (hpre p (List.mem_cons_self _ _)) with
      ⟨fields, xs, rfl, hd⟩
    rw [List.cons_append, raw_filter]
    rw [show subscript (Json.obj fields) "provinces" = .ok (Json.arr xs) from
      by rw [subscript, hd]]
    rw [ih (fun q hq => hpre q (List.mem_cons_of_mem _ hq))]
    rfl

theorem rawGood_shaped : ∀ p ∈ [rawGood], has_provinces_list p = true := by
  intro p hp
  rcases List.mem_cons.mp hp with rfl | hq
  · rfl
  · cases hq

theorem C10_filter_partial_witness :
    (∀ p ∈ [rawGood], has_provinces_list p = true)
    ∧ dictGet rawBadFields "provinces" = none
    ∧ (load_parks_from_json []
          (.parsed (.arr ([rawGood] ++ Json.obj rawBadFields :: [])))
        = .ok ([rawGood] ++ Json.obj rawBadFields :: [])
       ∧ filter_parks_raw ([rawGood] ++ Json.obj rawBadFields :: [])
          (some "CN-AH") = .error .keyError) :=
  ⟨rawGood_shaped, rfl,
   C10_filter_partial [rawGood] [] rawBadFields "CN-AH" rawGood_shaped rfl⟩

end POTA
